import Mathlib

/-!
Verification development for the RADAE streaming receiver
(`radae_rx.py` driving the DSP in `radae/radae.py`).

The development has two layers.

* A computable layer over `ℚ` / `ℤ` / `ℕ` embedding the modem-parameter
  construction of `RADAE.__init__` and the per-iteration logic of the
  `radae_rx.py` receive loop (timing-slip rule, unique-word tally and
  one-second check, FSM transitions, the sync-state emission step).
  External collaborators whose code is not part of the repository snapshot
  (the `acquisition` class and the neural network inside the decoder) enter
  as oracle parameters; the shapes they must honour are taken from the
  assertions in the repository code itself.

* A layer over `ℂ` embedding the streaming equaliser and demodulator
  (`RADAE.do_pilot_eq_one` / `RADAE.receiver_one`), with the DFT matrix,
  carrier frequencies and pilot sequence as parameters exactly as the
  streaming receiver passes them in.
-/

/-! ## Modem parameters (`RADAE.__init__`, pilots=true, cyclic_prefix=0.004)

All quantities below are computed with exact rational arithmetic following
the source formulas; the concrete streaming receiver uses
`latent_dim = 80`, `Nzmf = 3`, `bps = 2`, `Fs = 8000`. -/

/-- Sample rate of the modem signal (`self.Fs = 8000`). -/
def FsP : ℕ := 8000

/-- Feature update period `Tf = 0.01` s. -/
def TfQ : ℚ := 0.01

/-- Encoder/decoder stride `FRAMES_PER_STEP = 4` (CoreEncoder / CoreDecoder). -/
def framesPerStep : ℕ := 4

/-- Latent update period `Tz = Tf * enc_stride`. -/
def TzQ : ℚ := TfQ * framesPerStep

/-- OFDM QPSK symbol period with pilots (`Ts = 0.03`). -/
def TsQ : ℚ := 0.03

/-- OFDM QPSK symbol rate `Rs = 1/Ts`. -/
def RsQ : ℚ := 1 / TsQ

/-- Number of latent vectors per modem frame (`Nzmf = 3`). -/
def NzmfP : ℕ := 3

/-- Latent dimension used by the streaming receiver (default 80). -/
def latentDimP : ℕ := 80

/-- BPSK symbols per QPSK symbol (`bps = 2`). -/
def bpsP : ℕ := 2

/-- Total QPSK symbols per modem frame `Nsmf = Nzmf*latent_dim // bps`. -/
def NsmfP : ℕ := NzmfP * latentDimP / bpsP

/-- Data symbols between pilots: `Ns = int(Nzmf*Tz/Ts)`. -/
def NsP : ℕ := (⌊(NzmfP : ℚ) * TzQ / TsQ⌋).toNat

/-- Number of carriers `Nc = int(Nsmf // Ns)`. -/
def NcP : ℕ := NsmfP / NsP

/-- Symbol rate raised for the pilot row: `Rs' = Rs*(Ns+1)/Ns`. -/
def Rs1Q : ℚ := RsQ * (NsP + 1) / NsP

/-- Cyclic-prefix duration in seconds (`cyclic_prefix = 0.004`). -/
def cpQ : ℚ := 0.004

/-- Symbol rate raised again for the cyclic prefix:
`Rs'' = Rs' / (1 - cyclic_prefix/Ts')` with `Ts' = 1/Rs'`. -/
def Rs2Q : ℚ := Rs1Q / (1 - cpQ * Rs1Q)

/-- DFT size / oversampling rate `M = round(Fs / Rs'')`. -/
def MP : ℕ := (round ((FsP : ℚ) / Rs2Q)).toNat

/-- Cyclic-prefix length in samples `Ncp = int(cyclic_prefix*Fs)`. -/
def NcpP : ℕ := (⌊cpQ * (FsP : ℚ)⌋).toNat

/-- Lowest carrier DFT bin `lower = round(400/Rs'')`. -/
def lowerP : ℕ := (round ((400 : ℚ) / Rs2Q)).toNat

/-- Samples per modem frame `Nmf = (Ns+1)*(M+Ncp)` (`radae_rx.py`). -/
def NmfP : ℕ := (NsP + 1) * (MP + NcpP)

/-- Modem frames per wall-clock second, `synced_count_one_sec = Fs // Nmf`. -/
def syncedCountOneSecP : ℕ := FsP / NmfP

/-- Unsync patience `Nmf_unsync = int(Tunsync*Fs/Nmf)` with `Tunsync = 3`. -/
def NmfUnsyncP : ℕ := (⌊(3 : ℚ) * (FsP : ℚ) / (NmfP : ℚ)⌋).toNat

/-- UW error threshold from `radae_rx.py` (`uw_error_thresh = 7`). -/
def uwErrorThresh : ℕ := 7

/-! ## Receive-loop state and per-iteration logic (`radae_rx.py`)

The acquisition object (`acq.detect_pilots` / `acq.refine` /
`acq.check_pilots`) and the neural network inside the decoder are external
collaborators of the loop; they appear below as oracle parameters.  Shapes
the loop itself enforces (its `assert` statements) are embedded concretely. -/

/-- FSM states of the receive loop (`state` variable). -/
inductive FsmSt
  | search
  | candidate
  | sync
deriving DecidableEq, Repr

/-- Mutable per-iteration state of the receive loop, plus the state `σ` of
the external stateful decoder (held by the `GRUStatefull` / `Conv1DStatefull`
modules; the loop never writes it directly). -/
structure RxSt (σ : Type) where
  fsm : FsmSt
  tmax : ℤ
  tmaxCandidate : ℤ
  fmax : ℚ
  validCount : ℤ
  syncedCount : ℕ
  uwErrors : ℕ
  uwFail : Bool
  foffErr : ℚ
  decSt : σ
deriving DecidableEq

/-- Timing-slip rule (`radae_rx.py` lines 162-172, sync branch): first
`nin = Nmf`; if `tmax >= Nmf-M` then `nin = Nmf+M` and `tmax -= M`; then
(sequentially, not exclusively) if `tmax < M` then `nin = Nmf-M` and
`tmax += M`.  Returns `(nin, tmax)`. -/
def timingSlip (M Nmf tmax : ℤ) : ℤ × ℤ :=
  let nin := Nmf
  let p1 := if Nmf - M ≤ tmax then (Nmf + M, tmax - M) else (nin, tmax)
  let p2 := if p1.2 < M then (Nmf - M, p1.2 + M) else p1
  p2

/-- One-second unique-word check (`radae_rx.py` lines 175-178, executed when
`synced_count % synced_count_one_sec == 0`): set `uw_fail` if
`uw_errors > uw_error_thresh`, then clear `uw_errors`.
Returns `(uw_fail, uw_errors)`. -/
def uwOneSecCheck (uwErrors : ℕ) (uwFail : Bool) : Bool × ℕ :=
  (if uwErrorThresh < uwErrors then true else uwFail, 0)

/-- One auxiliary UW bit (`aux_bits = 1*(aux_symb[0,::symb_repeat] > 0)`):
feature index 20 of row `k` of the decoded feature rows, thresholded at 0. -/
def auxBit (rows : List (List ℚ)) (k : ℕ) : ℕ :=
  if 0 < (rows.getD k []).getD 20 0 then 1 else 0

/-- Row indices sampled for UW bits: `::4` over the decoded feature rows. -/
def auxIdx (rows : List (List ℚ)) : List ℕ :=
  (List.range rows.length).filter (fun k => k % 4 = 0)

/-- UW errors contributed by one modem frame: `np.sum(aux_bits)`. -/
def auxTally (rows : List (List ℚ)) : ℕ :=
  ((auxIdx rows).map (auxBit rows)).sum

/-- UW errors accumulated over a sequence of synced modem frames. -/
def auxSum (featsSeq : List (List (List ℚ))) : ℕ :=
  (featsSeq.map auxTally).sum

/-- Number of UW bits one frame contributes (length of `aux_symb[0,::4]`). -/
def uwBitsPerFrame (rows : List (List ℚ)) : ℕ :=
  (auxIdx rows).length

/-- External stateful decoder interface: initial state plus the neural net
mapping one latent vector to `FRAMES_PER_STEP` feature rows (the network
itself is outside the embedded core, per the spec scope). -/
structure Decoder (σ : Type) where
  init : σ
  net : σ → List ℚ → σ × List (List ℚ)

/-- Embedding of `CoreDecoderStatefull.forward` (radae.py lines 345-364):
`assert z.shape == (1,1,self.dense_1.in_features)` — the stateful decoder
accepts exactly one latent vector of length `latentDim` per call; any other
shape raises, modelled as `none`. -/
def coreDecoderStatefullCall {σ : Type} (latentDim : ℕ) (d : Decoder σ)
    (st : σ) (z : List (List ℚ)) : Option (σ × List (List ℚ)) :=
  if z.length = 1 ∧ (z.headD []).length = latentDim then
    some (d.net st (z.headD []))
  else
    none

/-- `features_hat = features_hat[:,:,0:20]` (auxdata strip). -/
def stripAux (auxdata : Bool) (rows : List (List ℚ)) : List (List ℚ) :=
  if auxdata then rows.map (fun r => r.take 20) else rows

/-- `torch.cat([features_hat, torch.zeros_like(features_hat)[:,:,:16]], dim=-1)`. -/
def pad36 (rows : List (List ℚ)) : List (List ℚ) :=
  rows.map (fun r => r ++ List.replicate 16 (0 : ℚ))

/-- Embedding of the sync-state decode-and-emit step
(`radae_rx.py` lines 191-205): `z_hat` is checked against `Nzmf`
(`assert(z_hat.shape[1] == model.Nzmf)`), then the whole tensor is passed to
`model.core_decoder_statefull` in a single call; on success the auxiliary
feature is tallied and stripped, 16 zeros are appended to each row and the
rows are written to stdout.  Returns `none` when an assertion fires
(the program aborts and nothing is emitted), otherwise
`some (decoder state, emitted rows, uw_errors increment)`. -/
def syncEmitStep {σ : Type} (Nzmf latentDim : ℕ) (auxdata : Bool)
    (d : Decoder σ) (st : σ) (zhat : List (List ℚ)) :
    Option (σ × List (List ℚ) × ℕ) :=
  if zhat.length = Nzmf then
    match coreDecoderStatefullCall latentDim d st zhat with
    | none => none
    | some (st2, feats) =>
        some (st2, pad36 (stripAux auxdata feats),
              if auxdata then auxTally feats else 0)
  else
    none

/-- Wide refinement frequency grid on entry to sync:
`np.arange(fmax-10, fmax+10, 0.25)` (80 points). -/
def ffineWide (fmax : ℚ) : List ℚ :=
  (List.range 80).map (fun k => fmax - 10 + (k : ℚ) * 0.25)

/-- Wide refinement timing grid on entry to sync:
`np.arange(tmax-1, tmax+2)`. -/
def tfineWide (tmax : ℤ) : List ℤ :=
  [tmax - 1, tmax, tmax + 1]

/-- Embedding of the `state == "candidate"` transition branch
(`radae_rx.py` lines 227-246).  `refine` is the acquisition oracle
`acq.refine(rx_buf, tmax, fmax, tfine_range, ffine_range)` with `rx_buf`
already applied; `cand` is this iteration's `candidate` flag. -/
def candidateStep {σ : Type} (auxdata : Bool) (M : ℕ) (NmfUnsync : ℤ)
    (refine : List ℤ → List ℚ → ℤ × ℚ) (cand : Bool) (s : RxSt σ) : RxSt σ :=
  if cand = true ∧ |(s.tmax : ℚ) - (s.tmaxCandidate : ℚ)| < 0.02 * (M : ℚ) then
    let vc := s.validCount + 1
    if 3 < vc then
      let rf := refine (tfineWide s.tmax) (ffineWide s.fmax)
      { s with fsm := FsmSt.sync, syncedCount := 0, uwFail := false,
               uwErrors := if auxdata then 0 else s.uwErrors,
               validCount := NmfUnsync,
               tmax := rf.1, fmax := rf.2 + s.foffErr, foffErr := 0 }
    else
      { s with validCount := vc }
  else
    { s with fsm := FsmSt.search }

/-- Embedding of the `state == "search"` transition branch
(`radae_rx.py` lines 222-226). -/
def searchStep {σ : Type} (cand : Bool) (s : RxSt σ) : RxSt σ :=
  if cand = true then
    { s with fsm := FsmSt.candidate, tmaxCandidate := s.tmax, validCount := 1 }
  else
    s

/-- Embedding of the `state == "sync"` transition branch
(`radae_rx.py` lines 247-262); `unsyncEnable` is the test-knob flag computed
from `--disable_unsync`. -/
def syncStep {σ : Type} (unsyncEnable : Bool) (NmfUnsync : ℤ)
    (cand endofover : Bool) (s : RxSt σ) : RxSt σ :=
  let s1 :=
    if cand = true then { s with validCount := NmfUnsync }
    else
      { s with validCount := s.validCount - 1,
               fsm := if unsyncEnable = true ∧ s.validCount - 1 = 0 then
                        FsmSt.search
                      else s.fsm }
  if unsyncEnable = true ∧ (endofover = true ∨ s1.uwFail = true) then
    { s1 with fsm := FsmSt.search }
  else s1

/-- The per-iteration FSM transition (`radae_rx.py` lines 219-264),
dispatching on the current state. -/
def fsmTransition {σ : Type} (auxdata unsyncEnable : Bool) (M : ℕ)
    (NmfUnsync : ℤ) (refine : List ℤ → List ℚ → ℤ × ℚ)
    (cand endofover : Bool) (s : RxSt σ) : RxSt σ :=
  match s.fsm with
  | FsmSt.search => searchStep cand s
  | FsmSt.candidate => candidateStep auxdata M NmfUnsync refine cand s
  | FsmSt.sync => syncStep unsyncEnable NmfUnsync cand endofover s

/-- Length and frame-count checks asserted by `RADAE.receiver_one`
(radae.py lines 724-727, with pilots the local `Ns` there is `self.Ns + 1`):
`num_timesteps_at_rate_Rs = len(rx) // (M+Ncp)`,
`num_modem_frames = num_timesteps_at_rate_Rs // (Ns+1)`, and the function
asserts `num_modem_frames == 1` and `num_timesteps_at_rate_Rs == Ns+2`. -/
def receiverOneChecks (M Ncp Ns len : ℕ) : Prop :=
  (len / (M + Ncp)) / (Ns + 1) = 1 ∧ len / (M + Ncp) = Ns + 2

/-! ## Streaming equaliser and demodulator (`RADAE.do_pilot_eq_one`,
`RADAE.receiver_one`)

`receiver_one` asserts `num_modem_frames == 1`, so the equaliser layer is
specialised to one modem frame spanning `Ns+2` symbol rows
(pilot row, `Ns` data rows, trailing pilot row).  The carrier frequencies
`w`, DFT matrix `Wfwd`, pilot sequence `P` and gains are the constructor
parameters the streaming receiver passes in (`radae_rx.py` lines 95-97). -/

/-- Parameters of the streaming receiver DSP (fields of the model object
used by `receiver_one` / `do_pilot_eq_one`). -/
structure EqP where
  Nc : ℕ
  Ns : ℕ
  M : ℕ
  Ncp : ℕ
  Nzmf : ℕ
  latentDim : ℕ
  FsE : ℕ
  timeOffset : ℤ
  bottleneck : ℕ
  w : ℕ → ℝ
  Wfwd : ℕ → ℕ → ℂ
  P : ℕ → ℂ
  pilotGain : ℝ
  coarseMag : Bool
  phaseMagEq : Bool

/-- `num_modem_frames`, asserted to be 1 in `receiver_one`. -/
def numModemFramesOne : ℕ := 1

/-- Edge handling of the 3-tap fit: `c_mid = c`, clipped to `1` at `c = 0`
and to `Nc-2` at `c = Nc-1`. -/
def cMid (p : EqP) (c : ℕ) : ℕ :=
  if c = 0 then 1 else if c = p.Nc - 1 then p.Nc - 2 else c

/-- Assumed path delay in samples: `a = local_path_delay_s * Fs` with
`local_path_delay_s = 0.0025`. -/
noncomputable def aDelay (p : EqP) : ℝ := 0.0025 * (p.FsE : ℝ)

/-- `torch.exp(-1j*self.w[c]*a)`, the delayed-path basis sample at carrier
`c`. -/
noncomputable def eW (p : EqP) (c : ℕ) : ℂ :=
  Complex.exp (-Complex.I * ((p.w c * aDelay p : ℝ) : ℂ))

/-- `torch.inverse` of a 2x2 complex matrix, row-major entries. -/
noncomputable def inv2x2 (a b c d : ℂ) : ℂ × ℂ × ℂ × ℂ :=
  (d / (a * d - b * c), -b / (a * d - b * c),
   -c / (a * d - b * c), a / (a * d - b * c))

/-- Determinant of the 2x2 normal matrix `AᵀA` inverted by the 3-tap fit
(`torch.transpose(A,0,1)` is the plain, unconjugated transpose), with
`A = [[1,e1],[1,e2],[1,e3]]` and `ei` the `eW` samples around `c_mid`. -/
noncomputable def detAtA (p : EqP) (c : ℕ) : ℂ :=
  let cm := cMid p c
  let e1 := eW p (cm - 1)
  let e2 := eW p cm
  let e3 := eW p (cm + 1)
  3 * (e1 * e1 + e2 * e2 + e3 * e3) - (e1 + e2 + e3) * (e1 + e2 + e3)

/-- 3-tap least-squares fit across frequency
(`do_pilot_eq_one`, radae.py lines 680-693): given the received pilot row
`row` of a modem frame, estimate the channel at carrier `c` by solving
`g = (AᵀA)⁻¹ Aᵀ h` with `h_k = row[c_mid-1+k] / P[c_mid-1+k]` and
evaluating the fitted channel `g0 + g1*exp(-1j*w[c]*a)`. -/
noncomputable def lsFit (p : EqP) (row : ℕ → ℂ) (c : ℕ) : ℂ :=
  let cm := cMid p c
  let e1 := eW p (cm - 1)
  let e2 := eW p cm
  let e3 := eW p (cm + 1)
  let q := inv2x2 3 (e1 + e2 + e3) (e1 + e2 + e3) (e1 * e1 + e2 * e2 + e3 * e3)
  let h1 := row (cm - 1) / p.P (cm - 1)
  let h2 := row cm / p.P cm
  let h3 := row (cm + 1) / p.P (cm + 1)
  let g0 := q.1 * (h1 + h2 + h3) + q.2.1 * (e1 * h1 + e2 * h2 + e3 * h3)
  let g1 := q.2.2.1 * (h1 + h2 + h3) + q.2.2.2 * (e1 * h1 + e2 * h2 + e3 * h3)
  g0 + g1 * eW p c

/-- The same fit with the failure behaviour of `torch.inverse` made
explicit: inverting a singular 2x2 normal matrix raises, modelled as
`none`.  The repository code performs no error handling around it. -/
noncomputable def lsFitChecked (p : EqP) (row : ℕ → ℂ) (c : ℕ) : Option ℂ :=
  if detAtA p c = 0 then none else some (lsFit p row c)

/-- Modelled from the spec: the per-carrier fallback estimate
`rx_pilots[i,c] = rx_sym_pilots[i,0,c] / P[c]` that section 7 of the spec
claims is used when the least-squares system is singular.  No such fallback
exists in the repository code; this definition exists only to compare the
spec's words against the code's behaviour. -/
noncomputable def lsFallbackSpec (p : EqP) (row : ℕ → ℂ) (c : ℕ) : ℂ :=
  row c / p.P c

/-- The pilot-estimate tensor `rx_pilots` of `do_pilot_eq_one`
(radae.py lines 677-693): allocated with `num_modem_frames+1` rows of
zeros, then the loop `for i in torch.arange(num_modem_frames)` overwrites
row `i < num_modem_frames` with the 3-tap fit of pilot row `(Ns+1)*i` of
`rx_sym_pilots`; rows not visited by the loop keep their zeros. -/
noncomputable def rxPilotsE (p : EqP) (rxsp : ℕ → ℕ → ℂ) (i c : ℕ) : ℂ :=
  if i < numModemFramesOne then
    lsFit p (fun k => rxsp ((p.Ns + 1) * i) k) c
  else 0

/-- Linear interpolation of the channel across the `Ns+2` row positions of
frame `i` (radae.py lines 696-700):
`slope = (rx_pilots[i+1,c]-rx_pilots[i,c])/(Ns+1)` and
`rx_ch[k] = slope*k + rx_pilots[i,c]`. -/
noncomputable def rxChE (p : EqP) (rxsp : ℕ → ℕ → ℂ) (i c k : ℕ) : ℂ :=
  (rxPilotsE p rxsp (i + 1) c - rxPilotsE p rxsp i c) / ((p.Ns : ℂ) + 1) * (k : ℂ)
    + rxPilotsE p rxsp i c

/-- Equalisation of the modem frame (radae.py lines 696-705, one frame):
data rows `1..Ns` are rotated by `exp(-1j*angle(rx_ch[k]))` (phase-only EQ)
or divided by `rx_ch[k]` when `phase_mag_eq`; the pilot rows `0` and `Ns+1`
are left untouched by this stage. -/
noncomputable def eqStage (p : EqP) (rxsp : ℕ → ℕ → ℂ) (t c : ℕ) : ℂ :=
  if 1 ≤ t ∧ t ≤ p.Ns then
    if p.phaseMagEq then rxsp t c / rxChE p rxsp 0 c t
    else rxsp t c * Complex.exp (-((rxChE p rxsp 0 c t).arg : ℂ) * Complex.I)
  else rxsp t c

/-- `torch.mean(torch.abs(rx_pilots)**2)` over the whole
`(num_modem_frames+1) x Nc` pilot-estimate tensor. -/
noncomputable def pilotMeanSq (p : EqP) (rxsp : ℕ → ℕ → ℂ) : ℝ :=
  (∑ i ∈ Finset.range (numModemFramesOne + 1), ∑ c ∈ Finset.range p.Nc,
      Complex.abs (rxPilotsE p rxsp i c) ^ 2)
    / (((numModemFramesOne + 1) * p.Nc : ℕ) : ℝ)

/-- The coarse magnitude `mag` of `do_pilot_eq_one` (radae.py lines 708-712):
`mag = mean(|rx_pilots|**2)**0.5`, additionally
`mag = mag*abs(P[0])/pilot_gain` when `bottleneck == 3`. -/
noncomputable def coarseMagVal (p : EqP) (rxsp : ℕ → ℕ → ℂ) : ℝ :=
  if p.bottleneck = 3 then
    Real.sqrt (pilotMeanSq p rxsp) * Complex.abs (p.P 0) / p.pilotGain
  else
    Real.sqrt (pilotMeanSq p rxsp)

/-- Full `do_pilot_eq_one` output at row `t`, carrier `c`: the equalised
tensor, divided entrywise by `mag` when `coarse_mag` is set
(`rx_sym_pilots = rx_sym_pilots/mag`, radae.py line 714). -/
noncomputable def doPilotEqOne (p : EqP) (rxsp : ℕ → ℕ → ℂ) (t c : ℕ) : ℂ :=
  if p.coarseMag = true then
    eqStage p rxsp t c / ((coarseMagVal p rxsp : ℝ) : ℂ)
  else
    eqStage p rxsp t c

/-- `torch.reshape(rx,(1,num_timesteps_at_rate_Rs,M+Ncp))`: symbol window
`t` of the rate-Fs input, sample `m` (radae.py line 731). -/
def rxResh (p : EqP) (rx : ℕ → ℂ) (t m : ℕ) : ℂ :=
  rx (t * (p.M + p.Ncp) + m)

/-- Lower column bound of the cyclic-prefix removal slice,
`Ncp + time_offset` (radae.py line 732; `16` for the streaming receiver
where `Ncp = 32` and `time_offset = -16`). -/
def colStart (p : EqP) : ℕ := (p.Ncp + p.timeOffset).toNat

/-- `rx_dash = rx[:,:,Ncp+time_offset : Ncp+time_offset+M]`. -/
def rxDash (p : EqP) (rx : ℕ → ℂ) (t m : ℕ) : ℂ :=
  rxResh p rx t (colStart p + m)

/-- `rx_sym = torch.matmul(rx_dash, Wfwd)` (radae.py line 735). -/
noncomputable def rxSymT (p : EqP) (rx : ℕ → ℂ) (t c : ℕ) : ℂ :=
  ∑ m ∈ Finset.range p.M, rxDash p rx t m * p.Wfwd m c

/-- The equalised symbol tensor of `receiver_one`
(`rx_sym_pilots = self.do_pilot_eq_one(...)`, radae.py line 739). -/
noncomputable def eqOut (p : EqP) (rx : ℕ → ℂ) (t c : ℕ) : ℂ :=
  doPilotEqOne p (rxSymT p rx) t c

/-- Data symbol `(i, j)` after the two reshapes of radae.py lines 740-744:
`rx_sym = rx_sym_pilots[:,:,1:Ns+1,:]` (drop the pilot row) followed by
`torch.reshape(rx_sym, (1, -1, latent_dim//2))` in row-major order. -/
noncomputable def dataSym (p : EqP) (rx : ℕ → ℂ) (i j : ℕ) : ℂ :=
  eqOut p rx ((i * (p.latentDim / 2) + j) / p.Nc + 1)
             ((i * (p.latentDim / 2) + j) % p.Nc)

/-- The real latent tensor `z_hat` (radae.py lines 745-748):
`z_hat[:,:,::2] = rx_sym.real` and `z_hat[:,:,1::2] = rx_sym.imag`. -/
noncomputable def zhatE (p : EqP) (rx : ℕ → ℂ) (i q : ℕ) : ℝ :=
  if q % 2 = 0 then (dataSym p rx i (q / 2)).re
  else (dataSym p rx i (q / 2)).im

/-- Carrier angular frequencies of the streaming receiver:
`w[c] = 2*pi*(lower+c)/M` with `lower = 8`, `M = 160`
(radae.py line 475 with the values of `radae_params`). -/
noncomputable def wRun (c : ℕ) : ℝ := 2 * Real.pi * (8 + c) / 160

/-- Forward DFT matrix of the streaming receiver:
`Wfwd[m,c] = exp(-1j*m*w[c])` (radae.py line 480). -/
noncomputable def WfwdRun (m c : ℕ) : ℂ :=
  Complex.exp (-Complex.I * (((m : ℝ) * wRun c : ℝ) : ℂ))

/-- Pilot symbols `P = sqrt(2) * barker_pilots(Nc)`: the wrapped Barker-13
pattern (radae.py lines 88-96 and 483). -/
noncomputable def pilotRun (c : ℕ) : ℂ :=
  Real.sqrt 2 *
    (if [0,1,2,3,4,7,8,10,12].contains (c % 13) then (1 : ℂ) else -1)

/-- Pilot gain for `bottleneck = 3`:
`pilot_gain = 10**(-2/20) * M / Nc**0.5` (radae.py lines 490-493). -/
noncomputable def pilotGainRun : ℝ :=
  (10 : ℝ) ^ ((-2 : ℝ) / 20) * 160 / Real.sqrt 30

/-- The parameter set the streaming receiver constructs
(`radae_rx.py` lines 80-97: `bottleneck = 3`, `time_offset = -16`,
`coarse_mag` set, `phase_mag_eq` false, and the `radae_params` values). -/
noncomputable def pRun : EqP where
  Nc := 30
  Ns := 4
  M := 160
  Ncp := 32
  Nzmf := 3
  latentDim := 80
  FsE := 8000
  timeOffset := -16
  bottleneck := 3
  w := wRun
  Wfwd := WfwdRun
  P := pilotRun
  pilotGain := pilotGainRun
  coarseMag := true
  phaseMagEq := false

/-- All-ones received symbol tensor, a concrete equaliser input. -/
def onesT : ℕ → ℕ → ℂ := fun _ _ => 1

/-- A parameter set whose carrier frequencies are all zero; it makes the
normal matrix of the 3-tap fit singular (`eW` is constantly 1). -/
noncomputable def pZero : EqP where
  Nc := 30
  Ns := 4
  M := 160
  Ncp := 32
  Nzmf := 3
  latentDim := 80
  FsE := 8000
  timeOffset := -16
  bottleneck := 3
  w := fun _ => 0
  Wfwd := fun _ _ => 0
  P := fun _ => 1
  pilotGain := 1
  coarseMag := true
  phaseMagEq := false

/-! ## Derived parameter values -/

/-- The streaming receiver's concrete modem parameters, computed by the
source formulas: `Ns = 4`, `Nc = 30`, `M = 160`, `Ncp = 32`, `lower = 8`,
`Nmf = 960`, `Fs//Nmf = 8` frames per second, `Nmf_unsync = 25`, and the
sanity check `Ns*Nc*bps == Nzmf*latent_dim` of radae.py line 451. -/
theorem radae_params :
    NsP = 4 ∧ NcP = 30 ∧ MP = 160 ∧ NcpP = 32 ∧ lowerP = 8 ∧ NmfP = 960 ∧
    syncedCountOneSecP = 8 ∧ NmfUnsyncP = 25 ∧
    NsP * NcP * bpsP = NzmfP * latentDimP := by
  have hNs : NsP = 4 := by
    rw [NsP, NzmfP, TzQ, TfQ, framesPerStep, TsQ]
    norm_num
    decide
  have hRs2 : Rs2Q = 50 := by
    rw [Rs2Q, Rs1Q, RsQ, TsQ, cpQ, hNs]
    norm_num
  have hM : MP = 160 := by
    rw [MP, FsP, hRs2, round_eq]
    norm_num
    decide
  have hNcp : NcpP = 32 := by
    rw [NcpP, cpQ, FsP]
    norm_num
    decide
  have hlow : lowerP = 8 := by
    rw [lowerP, hRs2, round_eq]
    norm_num
    decide
  have hNc : NcP = 30 := by
    rw [NcP, NsmfP, NzmfP, latentDimP, bpsP, hNs]
  have hNmf : NmfP = 960 := by
    rw [NmfP, hNs, hM, hNcp]
  have hsec : syncedCountOneSecP = 8 := by
    rw [syncedCountOneSecP, FsP, hNmf]
  have hun : NmfUnsyncP = 25 := by
    rw [NmfUnsyncP, FsP, hNmf]
    norm_num
    decide
  refine ⟨hNs, hNc, hM, hNcp, hlow, hNmf, hsec, hun, ?_⟩
  rw [hNs, hNc, bpsP, NzmfP, latentDimP]

/-- Closed form of the timing-slip rule: the two `if`s applied in sequence. -/
theorem timingSlip_eq (M Nmf tmax : ℤ) :
    timingSlip M Nmf tmax =
      if Nmf - M ≤ tmax then
        (if tmax - M < M then (Nmf - M, tmax) else (Nmf + M, tmax - M))
      else
        (if tmax < M then (Nmf - M, tmax + M) else (Nmf, tmax)) := by
  unfold timingSlip
  by_cases h1 : Nmf - M ≤ tmax
  · by_cases h2 : tmax - M < M <;> simp [h1, h2]
  · by_cases h2 : tmax < M <;> simp [h1, h2]

/-- Claim C6: for every receive-loop iteration (the rule runs in the sync
branch), given `0 < M`, `3M ≤ Nmf` (true of the concrete parameters
`M = 160`, `Nmf = 960`) and a pre-rule `tmax ∈ [0, Nmf)`, applying the
timing-slip rule keeps `tmax ∈ [0, Nmf)`; moreover when `tmax ≥ Nmf-M` the
next read is `Nmf+M` and `tmax` is decremented by `M`, when `tmax < M` the
next read is `Nmf-M` and `tmax` is incremented by `M`, and otherwise
`nin = Nmf` with `tmax` unchanged. -/
theorem rx_timing_slip_C6 (M Nmf tmax : ℤ) (hM : 0 < M) (h3 : 3 * M ≤ Nmf)
    (h0 : 0 ≤ tmax) (hlt : tmax < Nmf) :
    (0 ≤ (timingSlip M Nmf tmax).2 ∧ (timingSlip M Nmf tmax).2 < Nmf)
    ∧ (Nmf - M ≤ tmax →
        (timingSlip M Nmf tmax).1 = Nmf + M ∧
        (timingSlip M Nmf tmax).2 = tmax - M)
    ∧ (tmax < M →
        (timingSlip M Nmf tmax).1 = Nmf - M ∧
        (timingSlip M Nmf tmax).2 = tmax + M)
    ∧ (M ≤ tmax ∧ tmax < Nmf - M →
        (timingSlip M Nmf tmax).1 = Nmf ∧
        (timingSlip M Nmf tmax).2 = tmax) := by
  rw [timingSlip_eq]
  by_cases h1 : Nmf - M ≤ tmax
  · rw [if_pos h1, if_neg (show ¬ (tmax - M < M) by omega)]
    refine ⟨⟨by omega, by omega⟩, fun _ => ⟨rfl, rfl⟩,
      fun h => absurd h (by omega), fun h => absurd h.2 (by omega)⟩
  · rw [if_neg h1]
    by_cases h2 : tmax < M
    · rw [if_pos h2]
      refine ⟨⟨by omega, by omega⟩, fun h => absurd h h1,
        fun _ => ⟨rfl, rfl⟩, fun h => absurd h2 (by omega)⟩
    · rw [if_neg h2]
      refine ⟨⟨by omega, by omega⟩, fun h => absurd h h1,
        fun h => absurd h h2, fun _ => ⟨rfl, rfl⟩⟩

/-- Witness for C6 at the concrete parameters `M = 160`, `Nmf = 960` and a
pre-rule `tmax = 900 ≥ Nmf - M`. -/
theorem rx_timing_slip_C6_witness :
    ((0 : ℤ) < 160 ∧ 3 * 160 ≤ (960 : ℤ) ∧ (0 : ℤ) ≤ 900 ∧ (900 : ℤ) < 960)
    ∧ ((0 ≤ (timingSlip 160 960 900).2 ∧ (timingSlip 160 960 900).2 < 960)
    ∧ ((960 : ℤ) - 160 ≤ 900 →
        (timingSlip 160 960 900).1 = 960 + 160 ∧
        (timingSlip 160 960 900).2 = 900 - 160)
    ∧ ((900 : ℤ) < 160 →
        (timingSlip 160 960 900).1 = 960 - 160 ∧
        (timingSlip 160 960 900).2 = 900 + 160)
    ∧ ((160 : ℤ) ≤ 900 ∧ (900 : ℤ) < 960 - 160 →
        (timingSlip 160 960 900).1 = 960 ∧
        (timingSlip 160 960 900).2 = 900)) :=
  ⟨⟨by decide, by decide, by decide, by decide⟩,
   rx_timing_slip_C6 160 960 900 (by decide) (by decide) (by decide) (by decide)⟩

/-- Claim C10 (implicit): with `Nmf = (Ns+1)(M+Ncp) ≥ 3M`, `M > Ncp`,
`Ns ≥ 1`, and a pre-rule `tmax ∈ [0, Nmf)`, the post-rule `tmax` lies in
`[M, Nmf-M)`; hence the demodulated slice
`rx_buf[tmax-Ncp : tmax-Ncp+Nmf+M+Ncp]` starts at a non-negative index,
ends within the buffer of length `2*Nmf+M+Ncp`, has full length
`Nmf+M+Ncp = (Ns+2)(M+Ncp)`, and `receiver_one`'s assertions
`num_modem_frames == 1` and `num_timesteps_at_rate_Rs == Ns+2` hold. -/
theorem rx_slice_safe_C10 (M Ncp Ns : ℕ) (tmax : ℤ)
    (hNcp : (Ncp : ℤ) < (M : ℤ)) (hNs : 1 ≤ Ns)
    (h3 : 3 * (M : ℤ) ≤ (((Ns + 1) * (M + Ncp) : ℕ) : ℤ))
    (h0 : 0 ≤ tmax) (hlt : tmax < (((Ns + 1) * (M + Ncp) : ℕ) : ℤ)) :
    ((M : ℤ) ≤ (timingSlip (M : ℤ) (((Ns + 1) * (M + Ncp) : ℕ) : ℤ) tmax).2
    ∧ (timingSlip (M : ℤ) (((Ns + 1) * (M + Ncp) : ℕ) : ℤ) tmax).2
        < (((Ns + 1) * (M + Ncp) : ℕ) : ℤ) - (M : ℤ))
    ∧ 0 ≤ (timingSlip (M : ℤ) (((Ns + 1) * (M + Ncp) : ℕ) : ℤ) tmax).2 - (Ncp : ℤ)
    ∧ (timingSlip (M : ℤ) (((Ns + 1) * (M + Ncp) : ℕ) : ℤ) tmax).2 - (Ncp : ℤ)
        + ((((Ns + 1) * (M + Ncp) : ℕ) : ℤ) + (M : ℤ) + (Ncp : ℤ))
        ≤ 2 * (((Ns + 1) * (M + Ncp) : ℕ) : ℤ) + (M : ℤ) + (Ncp : ℤ)
    ∧ ((Ns + 1) * (M + Ncp) + M + Ncp : ℕ) = (Ns + 2) * (M + Ncp)
    ∧ receiverOneChecks M Ncp Ns ((Ns + 2) * (M + Ncp)) := by
  have hMpos : 0 < M + Ncp := by omega
  have hmid : (M : ℤ) ≤ (timingSlip (M : ℤ) (((Ns + 1) * (M + Ncp) : ℕ) : ℤ) tmax).2
      ∧ (timingSlip (M : ℤ) (((Ns + 1) * (M + Ncp) : ℕ) : ℤ) tmax).2
          < (((Ns + 1) * (M + Ncp) : ℕ) : ℤ) - (M : ℤ) := by
    rw [timingSlip_eq]
    by_cases h1 : (((Ns + 1) * (M + Ncp) : ℕ) : ℤ) - (M : ℤ) ≤ tmax
    · rw [if_pos h1, if_neg (show ¬ (tmax - (M : ℤ) < (M : ℤ)) by omega)]
      constructor <;> omega
    · rw [if_neg h1]
      by_cases h2 : tmax < (M : ℤ)
      · rw [if_pos h2]
        constructor <;> omega
      · rw [if_neg h2]
        constructor <;> omega
  have hdiv : (Ns + 2) * (M + Ncp) / (M + Ncp) = Ns + 2 :=
    Nat.mul_div_cancel _ hMpos
  refine ⟨hmid, by omega, by omega, by ring, ?_⟩
  unfold receiverOneChecks
  rw [hdiv]
  refine ⟨?_, rfl⟩
  have h2 : Ns + 2 = 1 + (Ns + 1) := by omega
  rw [h2, Nat.add_div_right _ (by omega), Nat.div_eq_of_lt (by omega)]

/-- Witness for C10 at the concrete parameters `M = 160`, `Ncp = 32`,
`Ns = 4` (so `Nmf = 960`) and pre-rule `tmax = 10`. -/
theorem rx_slice_safe_C10_witness :
    (((32 : ℕ) : ℤ) < ((160 : ℕ) : ℤ) ∧ (1 : ℕ) ≤ 4
      ∧ 3 * ((160 : ℕ) : ℤ) ≤ (((4 + 1) * (160 + 32) : ℕ) : ℤ)
      ∧ (0 : ℤ) ≤ 10 ∧ (10 : ℤ) < (((4 + 1) * (160 + 32) : ℕ) : ℤ))
    ∧ ((((160 : ℕ) : ℤ) ≤ (timingSlip ((160 : ℕ) : ℤ) (((4 + 1) * (160 + 32) : ℕ) : ℤ) 10).2
    ∧ (timingSlip ((160 : ℕ) : ℤ) (((4 + 1) * (160 + 32) : ℕ) : ℤ) 10).2
        < (((4 + 1) * (160 + 32) : ℕ) : ℤ) - ((160 : ℕ) : ℤ))
    ∧ 0 ≤ (timingSlip ((160 : ℕ) : ℤ) (((4 + 1) * (160 + 32) : ℕ) : ℤ) 10).2 - ((32 : ℕ) : ℤ)
    ∧ (timingSlip ((160 : ℕ) : ℤ) (((4 + 1) * (160 + 32) : ℕ) : ℤ) 10).2 - ((32 : ℕ) : ℤ)
        + ((((4 + 1) * (160 + 32) : ℕ) : ℤ) + ((160 : ℕ) : ℤ) + ((32 : ℕ) : ℤ))
        ≤ 2 * (((4 + 1) * (160 + 32) : ℕ) : ℤ) + ((160 : ℕ) : ℤ) + ((32 : ℕ) : ℤ)
    ∧ ((4 + 1) * (160 + 32) + 160 + 32 : ℕ) = (4 + 2) * (160 + 32)
    ∧ receiverOneChecks 160 32 4 ((4 + 2) * (160 + 32))) :=
  ⟨⟨by decide, by decide, by decide, by decide, by decide⟩,
   rx_slice_safe_C10 160 32 4 10 (by decide) (by decide) (by decide)
     (by decide) (by decide)⟩

/-! ## Unique-word accounting (C4) and the sync-state emission step (C2) -/

/-- Counterexample for claim C4: at a one-second boundary with
`uw_errors = 8` the code sets `uw_fail` (the condition is
`uw_errors > uw_error_thresh` with `uw_error_thresh = 7`), although
`8 > 8` is false — so a count of 8, which the claim says must not set
`uw_fail`, does set it. -/
theorem rx_uw_thresh_cex_C4 :
    (uwOneSecCheck 8 false).1 = true ∧ ¬ ((8 : ℕ) > 8) := by
  constructor
  · decide
  · decide

/-- Claim C4 as amended: with auxdata enabled and state sync, one wall-clock
second spans `Fs // Nmf = 8000/960 = 8` modem frames contributing
`8 * 3 = 24` UW bits (three per frame: `aux_symb[0,::4]` over
`Nzmf*FRAMES_PER_STEP = 12` feature rows); at the second boundary `uw_fail`
is set exactly when the accumulated 1-bit count exceeds
`uw_error_thresh = 7` (that is, at 8 or more of the 24), and the counter is
cleared for the next second. -/
theorem rx_uw_amended_C4 (featsSeq : List (List (List ℚ)))
    (hlen : featsSeq.length = 8000 / 960)
    (hrows : ∀ f ∈ featsSeq, f.length = 3 * 4) :
    (featsSeq.map uwBitsPerFrame).sum = 24
    ∧ ((uwOneSecCheck (auxSum featsSeq) false).1 = true ↔ 7 < auxSum featsSeq)
    ∧ (uwOneSecCheck (auxSum featsSeq) false).2 = 0 := by
  refine ⟨?_, ?_, rfl⟩
  · have hall : ∀ x ∈ featsSeq.map uwBitsPerFrame, x = 3 := by
      intro x hx
      rcases List.mem_map.mp hx with ⟨f, hf, hfx⟩
      have hlen12 : f.length = 3 * 4 := hrows f hf
      rw [← hfx, uwBitsPerFrame, auxIdx, hlen12]
      decide
    rw [List.sum_eq_card_nsmul _ 3 hall, List.length_map, hlen]
    decide
  · unfold uwOneSecCheck uwErrorThresh
    by_cases h : 7 < auxSum featsSeq
    · simp [h]
    · simp [h]

/-- Witness for the amended C4 at a concrete second of features: eight
frames of twelve 21-feature rows, all zero (so no UW errors). -/
theorem rx_uw_amended_C4_witness :
    ((List.replicate 8 (List.replicate 12 (List.replicate 21 (0 : ℚ)))).length = 8000 / 960
      ∧ ∀ f ∈ List.replicate 8 (List.replicate 12 (List.replicate 21 (0 : ℚ))), f.length = 3 * 4)
    ∧ (((List.replicate 8 (List.replicate 12 (List.replicate 21 (0 : ℚ)))).map uwBitsPerFrame).sum = 24
    ∧ (((uwOneSecCheck (auxSum (List.replicate 8 (List.replicate 12 (List.replicate 21 (0 : ℚ))))) false).1 = true
        ↔ 7 < auxSum (List.replicate 8 (List.replicate 12 (List.replicate 21 (0 : ℚ)))))
    ∧ (uwOneSecCheck (auxSum (List.replicate 8 (List.replicate 12 (List.replicate 21 (0 : ℚ))))) false).2 = 0)) :=
  ⟨⟨by decide, by decide⟩,
   rx_uw_amended_C4 (List.replicate 8 (List.replicate 12 (List.replicate 21 (0 : ℚ))))
     (by decide) (by decide)⟩

/-- Claim C2 (code bug): whatever latent tensor the DSP produces and
whatever the decoder network is, the sync-state decode-and-emit step of
`radae_rx.py` aborts with `Nzmf = 3` and `latent_dim = 80`: if
`z_hat.shape[1] != 3` the loop's own `assert` at line 193 fires, and
otherwise `model.core_decoder_statefull(z_hat)` receives three latent
vectors at once while `CoreDecoderStatefull.forward` asserts shape
`(1,1,80)` (radae.py line 348).  So no feature frames are emitted, where
the claim expects `Nzmf * FRAMES_PER_STEP = 12` frames of 36 floats. -/
theorem rx_sync_emit_none_C2 (σ : Type) (d : Decoder σ) (st : σ)
    (auxdata : Bool) (zhat : List (List ℚ)) :
    syncEmitStep 3 80 auxdata d st zhat = none := by
  unfold syncEmitStep
  by_cases h : zhat.length = 3
  · rw [if_pos h]
    have hc : coreDecoderStatefullCall 80 d st zhat = none := by
      unfold coreDecoderStatefullCall
      rw [if_neg]
      intro hcontra
      rw [hcontra.1] at h
      exact absurd h (by decide)
    rw [hc]
  · rw [if_neg h]

/-! ## FSM transitions: candidate state (C7) and decoder state (C3) -/

/-- A concrete refine oracle for witnesses: returns fixed
`(tmax, fmax) = (99, 1/2)` whatever the search grids are. -/
def refineConst : List ℤ → List ℚ → ℤ × ℚ := fun _ _ => (99, 1/2)

/-- A concrete decoder over state type `ℕ` whose fresh state is `0`. -/
def decNat : Decoder ℕ where
  init := 0
  net := fun st _ => (st + 1, [])

/-- A concrete receive-loop state in the candidate FSM state, with three
prior matches (`valid_count = 3`), matching timing
(`|tmax - tmax_candidate| = 1 < 0.02*160 = 3.2`), and decoder state `7`. -/
def stCand : RxSt ℕ where
  fsm := FsmSt.candidate
  tmax := 100
  tmaxCandidate := 101
  fmax := 2
  validCount := 3
  syncedCount := 5
  uwErrors := 4
  uwFail := false
  foffErr := 0
  decSt := 7

/-- Counterexample for claim C3: a concrete candidate-to-sync transition
(the step result is in state sync) after which the external decoder's state
is still `7`, not the fresh state `decNat.init = 0` — no `reset()` is
invoked. -/
theorem rx_no_decoder_reset_cex_C3 :
    (fsmTransition true true 160 25 refineConst true false stCand).fsm = FsmSt.sync
    ∧ (fsmTransition true true 160 25 refineConst true false stCand).decSt = stCand.decSt
    ∧ decNat.init = 0
    ∧ (fsmTransition true true 160 25 refineConst true false stCand).decSt ≠ decNat.init := by
  have hstep : fsmTransition true true 160 25 refineConst true false stCand =
      { stCand with fsm := FsmSt.sync, syncedCount := 0, uwFail := false,
                    uwErrors := 0, validCount := 25, tmax := 99,
                    fmax := 1/2 + 0, foffErr := 0 } := by
    unfold fsmTransition stCand
    unfold candidateStep
    rw [if_pos ⟨rfl, by norm_num⟩]
    norm_num [refineConst]
  rw [hstep]
  exact ⟨rfl, rfl, rfl, by decide⟩

/-- Claim C3 as amended: no FSM transition of the receive loop — in
particular not the candidate-to-sync transition — modifies the external
stateful decoder's state; the decoder has no `reset()` operation in the
code and keeps its accumulated state across re-syncs. -/
theorem rx_decoder_state_invariant_C3 {σ : Type} (auxdata unsyncEnable : Bool)
    (M : ℕ) (NmfUnsync : ℤ) (refine : List ℤ → List ℚ → ℤ × ℚ)
    (cand endofover : Bool) (s : RxSt σ) :
    (fsmTransition auxdata unsyncEnable M NmfUnsync refine cand endofover s).decSt
      = s.decSt := by
  unfold fsmTransition
  cases hf : s.fsm
  · unfold searchStep
    by_cases h : cand = true <;> simp [h]
  · unfold candidateStep
    by_cases h1 : cand = true ∧ |(s.tmax : ℚ) - (s.tmaxCandidate : ℚ)| < 0.02 * (M : ℚ)
    · rw [if_pos h1]
      by_cases h2 : 3 < s.validCount + 1 <;> simp [h2]
    · rw [if_neg h1]
  · unfold syncStep
    by_cases h1 : cand = true
    · simp only [h1, if_true]
      by_cases h2 : unsyncEnable = true ∧ (endofover = true ∨ s.uwFail = true) <;>
        simp [h2]
    · simp only [h1, if_false]
      by_cases h2 : unsyncEnable = true ∧ (endofover = true ∨ s.uwFail = true) <;>
        simp [h2]

/-- The candidate branch written without intermediate bindings
(definitional equality). -/
theorem candidateStep_eq {σ : Type} (auxdata : Bool) (M : ℕ) (NmfUnsync : ℤ)
    (refine : List ℤ → List ℚ → ℤ × ℚ) (cand : Bool) (s : RxSt σ) :
    candidateStep auxdata M NmfUnsync refine cand s =
      if cand = true ∧ |(s.tmax : ℚ) - (s.tmaxCandidate : ℚ)| < 0.02 * (M : ℚ) then
        if 3 < s.validCount + 1 then
          { s with fsm := FsmSt.sync, syncedCount := 0, uwFail := false,
                   uwErrors := if auxdata then 0 else s.uwErrors,
                   validCount := NmfUnsync,
                   tmax := (refine (tfineWide s.tmax) (ffineWide s.fmax)).1,
                   fmax := (refine (tfineWide s.tmax) (ffineWide s.fmax)).2 + s.foffErr,
                   foffErr := 0 }
        else { s with validCount := s.validCount + 1 }
      else { s with fsm := FsmSt.search } :=
  rfl

/-- Claim C7: in state candidate, the FSM moves to sync exactly when the
`candidate` flag is set, `|tmax - tmax_candidate| < 0.02*M`, and the match
has now held for more than 3 consecutive frames (`valid_count+1 > 3`); on
entry to sync it clears `synced_count` and `uw_errors`, sets
`uw_fail := false`, sets `valid_count := Nmf_unsync`, and refines over
`tfine_range = tmax ± 1` and `ffine_range = np.arange(fmax-10, fmax+10,
0.25)`; when the match fails the FSM falls back to search.
(With auxdata disabled, `uw_errors` is identically zero in every reachable
state since only the auxdata branch increments it; the hypothesis `huw`
captures that.) -/
theorem rx_candidate_sync_C7 {σ : Type} (auxdata unsyncEnable : Bool)
    (M : ℕ) (NmfUnsync : ℤ) (refine : List ℤ → List ℚ → ℤ × ℚ)
    (cand endofover : Bool) (s : RxSt σ)
    (hfsm : s.fsm = FsmSt.candidate)
    (huw : auxdata = true ∨ s.uwErrors = 0) :
    ((fsmTransition auxdata unsyncEnable M NmfUnsync refine cand endofover s).fsm
        = FsmSt.sync
      ↔ (cand = true ∧ |(s.tmax : ℚ) - (s.tmaxCandidate : ℚ)| < 0.02 * (M : ℚ)
          ∧ 3 < s.validCount + 1))
    ∧ (¬ (cand = true ∧ |(s.tmax : ℚ) - (s.tmaxCandidate : ℚ)| < 0.02 * (M : ℚ)) →
        (fsmTransition auxdata unsyncEnable M NmfUnsync refine cand endofover s).fsm
          = FsmSt.search)
    ∧ ((cand = true ∧ |(s.tmax : ℚ) - (s.tmaxCandidate : ℚ)| < 0.02 * (M : ℚ))
          ∧ ¬ 3 < s.validCount + 1 →
        (fsmTransition auxdata unsyncEnable M NmfUnsync refine cand endofover s).fsm
          = FsmSt.candidate
        ∧ (fsmTransition auxdata unsyncEnable M NmfUnsync refine cand endofover s).validCount
          = s.validCount + 1)
    ∧ ((fsmTransition auxdata unsyncEnable M NmfUnsync refine cand endofover s).fsm
          = FsmSt.sync →
        (fsmTransition auxdata unsyncEnable M NmfUnsync refine cand endofover s).syncedCount = 0
        ∧ (fsmTransition auxdata unsyncEnable M NmfUnsync refine cand endofover s).uwFail = false
        ∧ (fsmTransition auxdata unsyncEnable M NmfUnsync refine cand endofover s).uwErrors = 0
        ∧ (fsmTransition auxdata unsyncEnable M NmfUnsync refine cand endofover s).validCount
            = NmfUnsync
        ∧ (fsmTransition auxdata unsyncEnable M NmfUnsync refine cand endofover s).tmax
            = (refine (tfineWide s.tmax) (ffineWide s.fmax)).1
        ∧ (fsmTransition auxdata unsyncEnable M NmfUnsync refine cand endofover s).fmax
            = (refine (tfineWide s.tmax) (ffineWide s.fmax)).2 + s.foffErr
        ∧ tfineWide s.tmax = [s.tmax - 1, s.tmax, s.tmax + 1]
        ∧ ffineWide s.fmax
            = (List.range 80).map (fun k => s.fmax - 10 + (k : ℚ) * 0.25)) := by
  have ht : fsmTransition auxdata unsyncEnable M NmfUnsync refine cand endofover s
      = candidateStep auxdata M NmfUnsync refine cand s := by
    unfold fsmTransition
    rw [hfsm]
  rw [ht, candidateStep_eq]
  have huw0 : (if auxdata = true then 0 else s.uwErrors) = 0 := by
    rcases huw with h | h
    · rw [if_pos h]
    · cases auxdata <;> simp [h]
  by_cases h1 : cand = true ∧ |(s.tmax : ℚ) - (s.tmaxCandidate : ℚ)| < 0.02 * (M : ℚ)
  · rw [if_pos h1]
    by_cases h2 : 3 < s.validCount + 1
    · rw [if_pos h2]
      refine ⟨⟨fun _ => ⟨h1.1, h1.2, h2⟩, fun _ => rfl⟩,
        fun h => absurd h1 h, fun h => absurd h2 h.2, fun _ => ?_⟩
      exact ⟨rfl, rfl, huw0, rfl, rfl, rfl, rfl, rfl⟩
    · rw [if_neg h2]
      have hcfsm : ({ s with validCount := s.validCount + 1 } : RxSt σ).fsm
          = FsmSt.candidate := hfsm
      refine ⟨⟨fun h => ?_, fun h => absurd h.2.2 h2⟩, fun h => absurd h1 h,
        fun _ => ⟨hcfsm, rfl⟩, fun h => ?_⟩
      · rw [hcfsm] at h
        exact FsmSt.noConfusion h
      · rw [hcfsm] at h
        exact FsmSt.noConfusion h
  · rw [if_neg h1]
    refine ⟨⟨fun h => FsmSt.noConfusion h, fun h => absurd ⟨h.1, h.2.1⟩ h1⟩,
      fun _ => rfl, fun h => absurd h.1 h1, fun h => FsmSt.noConfusion h⟩

/-- Witness for C7: the concrete candidate-state step of
`rx_no_decoder_reset_cex_C3`, applied through the claim theorem. -/
theorem rx_candidate_sync_C7_witness :
    (stCand.fsm = FsmSt.candidate ∧ (true = true ∨ stCand.uwErrors = 0))
    ∧ (((fsmTransition true true 160 25 refineConst true false stCand).fsm
        = FsmSt.sync
      ↔ (true = true ∧ |(stCand.tmax : ℚ) - (stCand.tmaxCandidate : ℚ)| < 0.02 * ((160 : ℕ) : ℚ)
          ∧ 3 < stCand.validCount + 1))
    ∧ (¬ (true = true ∧ |(stCand.tmax : ℚ) - (stCand.tmaxCandidate : ℚ)| < 0.02 * ((160 : ℕ) : ℚ)) →
        (fsmTransition true true 160 25 refineConst true false stCand).fsm
          = FsmSt.search)
    ∧ ((true = true ∧ |(stCand.tmax : ℚ) - (stCand.tmaxCandidate : ℚ)| < 0.02 * ((160 : ℕ) : ℚ))
          ∧ ¬ 3 < stCand.validCount + 1 →
        (fsmTransition true true 160 25 refineConst true false stCand).fsm
          = FsmSt.candidate
        ∧ (fsmTransition true true 160 25 refineConst true false stCand).validCount
          = stCand.validCount + 1)
    ∧ ((fsmTransition true true 160 25 refineConst true false stCand).fsm
          = FsmSt.sync →
        (fsmTransition true true 160 25 refineConst true false stCand).syncedCount = 0
        ∧ (fsmTransition true true 160 25 refineConst true false stCand).uwFail = false
        ∧ (fsmTransition true true 160 25 refineConst true false stCand).uwErrors = 0
        ∧ (fsmTransition true true 160 25 refineConst true false stCand).validCount = 25
        ∧ (fsmTransition true true 160 25 refineConst true false stCand).tmax
            = (refineConst (tfineWide stCand.tmax) (ffineWide stCand.fmax)).1
        ∧ (fsmTransition true true 160 25 refineConst true false stCand).fmax
            = (refineConst (tfineWide stCand.tmax) (ffineWide stCand.fmax)).2 + stCand.foffErr
        ∧ tfineWide stCand.tmax = [stCand.tmax - 1, stCand.tmax, stCand.tmax + 1]
        ∧ ffineWide stCand.fmax
            = (List.range 80).map (fun k => stCand.fmax - 10 + (k : ℚ) * 0.25))) :=
  ⟨⟨rfl, Or.inl rfl⟩,
   rx_candidate_sync_C7 true true 160 25 refineConst true false stCand rfl (Or.inl rfl)⟩

/-! ## Equaliser and demodulator claims -/

/-- Claim C1 (code bug): on the all-ones received tensor — whose trailing
pilot row `Ns+1` is present and equal to 1 — the estimation loop of
`do_pilot_eq_one` leaves the second interpolation endpoint
`rx_pilots[1,c]` at its zero initialisation (the loop runs only for
`i < num_modem_frames = 1`), so the interpolated channel at the trailing
pilot position is 0 instead of a least-squares estimate of the received
trailing pilots: the claim that both endpoints are channel estimates
computed from received pilot symbols fails. -/
theorem eq_pilot_endpoint_C1 :
    rxPilotsE pRun onesT 1 0 = 0
    ∧ onesT (pRun.Ns + 1) 0 = 1
    ∧ rxChE pRun onesT 0 0 (pRun.Ns + 1) = 0 := by
  have h1 : rxPilotsE pRun onesT 1 0 = 0 := by
    unfold rxPilotsE numModemFramesOne
    rw [if_neg (by omega)]
  refine ⟨h1, rfl, ?_⟩
  unfold rxChE
  rw [h1]
  have hNs : pRun.Ns = 4 := rfl
  rw [hNs]
  push_cast
  set z := rxPilotsE pRun onesT 0 0 with hz
  rw [show ((4 : ℂ) + 1) = 5 by norm_num,
    div_mul_cancel₀ _ (by norm_num : (5 : ℂ) ≠ 0)]
  ring

/-- Counterexample for claim C5: with all carrier frequencies zero (a
parameter input on which `AᵀA` is singular), the checked least-squares step
fails (`torch.inverse` raises, modelled as `none`) instead of producing the
fallback estimate `rx_sym_pilots[i,0,c]/P[c]` the claim promises (which
here would be `1`). -/
theorem eq_ls_singular_cex_C5 :
    detAtA pZero 0 = 0
    ∧ lsFitChecked pZero (fun _ => 1) 0 = none
    ∧ lsFallbackSpec pZero (fun _ => 1) 0 = 1
    ∧ lsFitChecked pZero (fun _ => 1) 0
        ≠ some (lsFallbackSpec pZero (fun _ => 1) 0) := by
  have he : ∀ cc, eW pZero cc = 1 := by
    intro cc
    unfold eW
    rw [show pZero.w cc = 0 from rfl]
    simp
  have hdet : detAtA pZero 0 = 0 := by
    simp only [detAtA, he]
    ring
  have hnone : lsFitChecked pZero (fun _ => 1) 0 = none := by
    unfold lsFitChecked
    rw [if_pos hdet]
  refine ⟨hdet, hnone, ?_, ?_⟩
  · unfold lsFallbackSpec
    rw [show pZero.P 0 = 1 from rfl, div_one]
  · rw [hnone]
    exact fun hx => Option.noConfusion hx

/-- Claim C5 as amended: whenever the 2x2 normal matrix of the 3-tap fit is
singular, the least-squares pilot estimation fails (the `torch.inverse`
call raises); in particular it does not produce the per-carrier fallback
estimate — no such fallback exists in the code. -/
theorem eq_ls_singular_fails_C5 (p : EqP) (row : ℕ → ℂ) (c : ℕ)
    (h : detAtA p c = 0) :
    lsFitChecked p row c = none
    ∧ lsFitChecked p row c ≠ some (lsFallbackSpec p row c) := by
  have hnone : lsFitChecked p row c = none := by
    unfold lsFitChecked
    rw [if_pos h]
  exact ⟨hnone, by rw [hnone]; exact fun hx => Option.noConfusion hx⟩

/-- Witness for the amended C5 at the singular concrete input `pZero`. -/
theorem eq_ls_singular_fails_C5_witness :
    detAtA pZero 0 = 0
    ∧ (lsFitChecked pZero (fun _ => 1) 0 = none
       ∧ lsFitChecked pZero (fun _ => 1) 0
           ≠ some (lsFallbackSpec pZero (fun _ => 1) 0)) := by
  have he : ∀ cc, eW pZero cc = 1 := by
    intro cc
    unfold eW
    rw [show pZero.w cc = 0 from rfl]
    simp
  have hdet : detAtA pZero 0 = 0 := by
    simp only [detAtA, he]
    ring
  exact ⟨hdet, eq_ls_singular_fails_C5 pZero (fun _ => 1) 0 hdet⟩

/-- Claim C9: with `coarse_mag` set, every entry of the modem frame — the
pilot row 0 and the trailing pilot row `Ns+1` included, both of which the
equalisation stage leaves untouched — is divided by `mag`, and `mag` is the
square root of the mean of `|rx_pilots|**2` over the pilot-estimate tensor,
additionally scaled by `|P[0]|/pilot_gain` exactly when `bottleneck = 3`. -/
theorem eq_coarse_mag_C9 (p : EqP) (rxsp : ℕ → ℕ → ℂ)
    (h : p.coarseMag = true) (t c : ℕ) :
    doPilotEqOne p rxsp t c = eqStage p rxsp t c / ((coarseMagVal p rxsp : ℝ) : ℂ)
    ∧ coarseMagVal p rxsp
        = Real.sqrt (pilotMeanSq p rxsp)
          * (if p.bottleneck = 3 then Complex.abs (p.P 0) / p.pilotGain else 1)
    ∧ eqStage p rxsp 0 c = rxsp 0 c
    ∧ eqStage p rxsp (p.Ns + 1) c = rxsp (p.Ns + 1) c := by
  refine ⟨?_, ?_, ?_, ?_⟩
  · unfold doPilotEqOne
    rw [if_pos h]
  · unfold coarseMagVal
    by_cases hb : p.bottleneck = 3
    · rw [if_pos hb, if_pos hb, mul_div_assoc]
    · rw [if_neg hb, if_neg hb, mul_one]
  · unfold eqStage
    rw [if_neg (by omega)]
  · unfold eqStage
    rw [if_neg (by omega)]

/-- Witness for C9 at the streaming receiver's parameters and the all-ones
symbol tensor, row `t = 0`, carrier `c = 0`. -/
theorem eq_coarse_mag_C9_witness :
    pRun.coarseMag = true
    ∧ (doPilotEqOne pRun onesT 0 0
        = eqStage pRun onesT 0 0 / ((coarseMagVal pRun onesT : ℝ) : ℂ)
    ∧ coarseMagVal pRun onesT
        = Real.sqrt (pilotMeanSq pRun onesT)
          * (if pRun.bottleneck = 3 then Complex.abs (pRun.P 0) / pRun.pilotGain else 1)
    ∧ eqStage pRun onesT 0 0 = onesT 0 0
    ∧ eqStage pRun onesT (pRun.Ns + 1) 0 = onesT (pRun.Ns + 1) 0) :=
  ⟨rfl, eq_coarse_mag_C9 pRun onesT rfl 0 0⟩

/-- Claim C8: for the streaming receiver's parameters, every symbol window
`t` of the rate-Fs input has its body taken as columns
`[Ncp+time_offset, Ncp+time_offset+M) = [16, 176)` of the `M+Ncp = 192`
sample window and multiplied by the forward DFT matrix, and after
equalisation data symbol `(i,j)` of the `[Nzmf, latent_dim]` latent tensor
is the equalised symbol at data row `(i*40+j)/30 + 1` (pilot row skipped),
carrier `(i*40+j) % 30`, contributing its real part at even index `2j` and
its imaginary part at odd index `2j+1`; the frame carries
`Ns*Nc*2 = Nzmf*latent_dim` real values. -/
theorem eq_demod_C8 (rx : ℕ → ℂ) (t c i j : ℕ) :
    rxSymT pRun rx t c
      = ∑ m ∈ Finset.range 160, rx (t * 192 + (16 + m)) * WfwdRun m c
    ∧ zhatE pRun rx i (2 * j) = (dataSym pRun rx i j).re
    ∧ zhatE pRun rx i (2 * j + 1) = (dataSym pRun rx i j).im
    ∧ dataSym pRun rx i j
      = eqOut pRun rx ((i * 40 + j) / 30 + 1) ((i * 40 + j) % 30)
    ∧ pRun.Ns * pRun.Nc * 2 = pRun.Nzmf * pRun.latentDim := by
  refine ⟨rfl, ?_, ?_, rfl, rfl⟩
  · unfold zhatE
    rw [if_pos (Nat.mul_mod_right 2 j)]
    rw [Nat.mul_div_cancel_left j (by norm_num : 0 < 2)]
  · unfold zhatE
    rw [if_neg (by omega)]
    rw [show (2 * j + 1) / 2 = j by omega]
